import Mathlib

/-!
Verification of the agile-dashboard repository against its natural-language
specification.  The Python sources (src/app.py, src/client_health.py,
src/sentiment_overrides.py, src/client_health_cache.py) are shallowly embedded
as Lean definitions below; theorems settle the frozen claims C1 .. C10.

Conventions of the embedding:
* Python dicts with a fixed shape become structures; optional keys become
  Option fields.
* datetimes are modelled as integers (millisecond-resolution timestamps);
  only their ordering and round-tripping matter to the claims.
* Machine floats of the source are modelled as rationals.
* Python truthiness tests (`if x:`) are spelled out explicitly where the
  source relies on them (0, "", None and [] are falsy).
-/

namespace AgileDash

/-! ## client_health.py — health scoring (`calculate_health`) -/

/-- Result of `calculate_health`: a status string, a list of reason strings,
and the optional `escalated` flag (absent key modelled as `false`). -/
structure HealthVerdict where
  status : String
  reasons : List String
  escalated : Bool
deriving DecidableEq

/-- Embeds the overdue-task signal block of `calculate_health`
(client_health.py): `overdue >= 4` appends a red reason, `elif 1 <= overdue
<= 3` appends a yellow reason (with singular/plural suffix).  Returns
(red appends, yellow appends). -/
def overdueSignals (overdue : Nat) : List String × List String :=
  if 4 ≤ overdue then ([toString overdue ++ " overdue tasks"], [])
  else if 1 ≤ overdue ∧ overdue ≤ 3 then
    ([], [toString overdue ++ " overdue task" ++ (if 1 < overdue then "s" else "")])
  else ([], [])

/-- Embeds `touchpoints = [d for d in [days_since_email, days_since_call] if d
is not None]` followed by `min(touchpoints)` when non-empty
(client_health.py, `calculate_health`). -/
def touchpointMin (days_since_email days_since_call : Option Int) : Option Int :=
  match ([days_since_email, days_since_call].filterMap id) with
  | [] => none
  | x :: xs => some (xs.foldl min x)

/-- Embeds the combined-touchpoint signal block of `calculate_health`:
no signal when both inputs are None, red when the minimum exceeds 14,
yellow (elif) when it exceeds 7. -/
def touchpointSignals (days_since_email days_since_call : Option Int) :
    List String × List String :=
  match touchpointMin days_since_email days_since_call with
  | none => ([], [])
  | some d =>
    if 14 < d then (["No touchpoint in " ++ toString d ++ " days"], [])
    else if 7 < d then ([], ["Last touchpoint " ++ toString d ++ " days ago"])
    else ([], [])

/-- Embeds the sentiment signal block of `calculate_health`:
"negative" appends a red reason, `elif` "concerned" or "mildly_negative"
appends a yellow reason. -/
def sentimentSignals (email_sentiment : String) : List String × List String :=
  if email_sentiment = "negative" then (["Negative email sentiment"], [])
  else if email_sentiment = "concerned" ∨ email_sentiment = "mildly_negative" then
    ([], ["Concerned email tone"])
  else ([], [])

/-- Embeds the final status determination of `calculate_health`:
any red signal gives red with red then yellow reasons; else two or more
yellow signals escalate to red; else one yellow signal gives yellow;
else green with the single reason "All healthy". -/
def aggregate (red_signals yellow_signals : List String) : HealthVerdict :=
  if red_signals ≠ [] then ⟨"red", red_signals ++ yellow_signals, false⟩
  else if 2 ≤ yellow_signals.length then ⟨"red", yellow_signals, true⟩
  else if yellow_signals ≠ [] then ⟨"yellow", yellow_signals, false⟩
  else ⟨"green", ["All healthy"], false⟩

/-- Embedding of `calculate_health` (client_health.py).  The source appends to
`red_signals` / `yellow_signals` in program order (overdue block, touchpoint
block, sentiment block), which the concatenations below reproduce exactly. -/
def calculate_health (overdue : Nat) (days_since_email days_since_call : Option Int)
    (email_sentiment : String) : HealthVerdict :=
  aggregate
    ((overdueSignals overdue).1 ++ (touchpointSignals days_since_email days_since_call).1
      ++ (sentimentSignals email_sentiment).1)
    ((overdueSignals overdue).2 ++ (touchpointSignals days_since_email days_since_call).2
      ++ (sentimentSignals email_sentiment).2)

/-! Specification-side health function for the refinement claim C1.  The spec
fixes the red overdue reason text, leaves the remaining reason texts open
(the scenario only pins "Last touchpoint 10 days ago" and "2 overdue tasks"
at concrete inputs), so the spec function is parametric in the texts. -/

/-- Reason-text family used by the specification-side health function. -/
structure ReasonTexts where
  overdueRed : Nat → String
  overdueYellow : Nat → String
  touchRed : Int → String
  touchYellow : Int → String
  sentRed : String
  sentYellow : String

/-- The reason texts the source actually emits. -/
def codeTexts : ReasonTexts where
  overdueRed := fun n => toString n ++ " overdue tasks"
  overdueYellow := fun n => toString n ++ " overdue task" ++ (if 1 < n then "s" else "")
  touchRed := fun d => "No touchpoint in " ++ toString d ++ " days"
  touchYellow := fun d => "Last touchpoint " ++ toString d ++ " days ago"
  sentRed := "Negative email sentiment"
  sentYellow := "Concerned email tone"

/-- Specification-side health verdict, written from the spec's sentences:
overdue n ≥ 4 red / 1 ≤ n ≤ 3 yellow; touchpoint = minimum over the non-null
inputs, no signal when both null, red when above 14, yellow when above 7 and
at most 14; sentiment "negative" red, "concerned" or legacy "mildly_negative"
yellow; then the stated aggregation (any red fires red with red-then-yellow
reasons, else two yellows escalate to red with escalated=true, else one
yellow gives yellow, else green with "All healthy"). -/
def healthSpec (T : ReasonTexts) (n : Nat) (days_since_email days_since_call : Option Int)
    (sent : String) : HealthVerdict :=
  let oRed : List String := if 4 ≤ n then [T.overdueRed n] else []
  let oYellow : List String := if 1 ≤ n ∧ n ≤ 3 then [T.overdueYellow n] else []
  let touchpoint : Option Int := touchpointMin days_since_email days_since_call
  let tRed : List String :=
    match touchpoint with
    | some d => if 14 < d then [T.touchRed d] else []
    | none => []
  let tYellow : List String :=
    match touchpoint with
    | some d => if 7 < d ∧ d ≤ 14 then [T.touchYellow d] else []
    | none => []
  let sRed : List String := if sent = "negative" then [T.sentRed] else []
  let sYellow : List String :=
    if sent = "concerned" ∨ sent = "mildly_negative" then [T.sentYellow] else []
  let red := oRed ++ tRed ++ sRed
  let yellow := oYellow ++ tYellow ++ sYellow
  if red ≠ [] then ⟨"red", red ++ yellow, false⟩
  else if 2 ≤ yellow.length then ⟨"red", yellow, true⟩
  else if yellow ≠ [] then ⟨"yellow", yellow, false⟩
  else ⟨"green", ["All healthy"], false⟩

/-- Severity ordering on status strings: green < yellow < red. -/
def severity (s : String) : Nat :=
  match s with
  | "green" => 0
  | "yellow" => 1
  | _ => 2

/-- The overdue block of the source equals the spec's two independent guards. -/
lemma overdueSignals_eq_spec (n : Nat) :
    overdueSignals n =
      ((if 4 ≤ n then [codeTexts.overdueRed n] else []),
       (if 1 ≤ n ∧ n ≤ 3 then [codeTexts.overdueYellow n] else [])) := by
  unfold overdueSignals codeTexts
  by_cases h1 : 4 ≤ n
  · simp [h1, show ¬(1 ≤ n ∧ n ≤ 3) by omega]
  · by_cases h2 : 1 ≤ n ∧ n ≤ 3
    · simp [h1, h2]
    · simp [h1, h2]

/-- The touchpoint block of the source equals the spec's two independent guards. -/
lemma touchpointSignals_eq_spec (e c : Option Int) :
    touchpointSignals e c =
      ((match touchpointMin e c with
        | some d => if 14 < d then [codeTexts.touchRed d] else []
        | none => []),
       (match touchpointMin e c with
        | some d => if 7 < d ∧ d ≤ 14 then [codeTexts.touchYellow d] else []
        | none => [])) := by
  unfold touchpointSignals codeTexts
  rcases touchpointMin e c with _ | d
  · rfl
  · simp only
    by_cases h1 : 14 < d
    · simp [h1, show ¬(7 < d ∧ d ≤ 14) by omega]
    · by_cases h2 : 7 < d
      · simp [h1, h2, show 7 < d ∧ d ≤ 14 by omega]
      · simp [h1, h2, show ¬(7 < d ∧ d ≤ 14) by omega]

/-- The sentiment block of the source equals the spec's two independent guards. -/
lemma sentimentSignals_eq_spec (s : String) :
    sentimentSignals s =
      ((if s = "negative" then [codeTexts.sentRed] else []),
       (if s = "concerned" ∨ s = "mildly_negative" then [codeTexts.sentYellow] else [])) := by
  unfold sentimentSignals codeTexts
  split_ifs <;> simp_all

/-- C1: For every input (overdue count, daysSinceEmail, daysSinceCall, sentiment
label), `calculate_health` returns exactly the verdict described by the spec:
overdue ≥ 4 red with reason "{n} overdue tasks" / 1–3 yellow; touchpoint =
minimum of the non-null day counts with no signal when both are null, red above
14 days, yellow above 7 and at most 14; sentiment "negative" red, "concerned"
or legacy "mildly_negative" yellow; aggregation: any red gives status red with
all red reasons followed by all yellow reasons, else two or more yellow signals
give red with escalated=true and the yellow list, else one yellow gives yellow,
else green with single reason "All healthy". -/
theorem C1_calculate_health_follows_spec (n : Nat) (e c : Option Int) (s : String) :
    calculate_health n e c s = healthSpec codeTexts n e c s := by
  unfold calculate_health healthSpec
  rw [overdueSignals_eq_spec, touchpointSignals_eq_spec, sentimentSignals_eq_spec]
  rfl

/-- Severity of the aggregated status as a function of the signal counts. -/
lemma severity_aggregate (red yellow : List String) :
    severity (aggregate red yellow).status =
      if red.length ≠ 0 then 2
      else if 2 ≤ yellow.length then 2
      else if yellow.length = 1 then 1
      else 0 := by
  unfold aggregate
  rcases red with _ | ⟨r, rs⟩
  · simp only [ne_eq, not_true_eq_false, if_false, List.length_nil, not_false_iff, if_true]
    rcases yellow with _ | ⟨y, ys⟩
    · simp [severity]
    · rcases ys with _ | ⟨y2, ys2⟩
      · simp [severity]
      · simp [severity, Nat.le_add_right]
  · simp [severity]

/-- Number of red reasons contributed by the overdue block. -/
lemma overdueSignals_fst_length (n : Nat) :
    (overdueSignals n).1.length = if 4 ≤ n then 1 else 0 := by
  unfold overdueSignals
  split_ifs <;> simp_all

/-- Number of yellow reasons contributed by the overdue block. -/
lemma overdueSignals_snd_length (n : Nat) :
    (overdueSignals n).2.length = if 1 ≤ n ∧ n ≤ 3 then 1 else 0 := by
  unfold overdueSignals
  split_ifs <;> simp_all
  omega

/-- C8: Health-status monotonicity — for two otherwise-identical inputs, a
larger-or-equal overdue count never yields a strictly healthier status, under
the severity ordering green < yellow < red. -/
theorem C8_health_monotone_in_overdue (n m : Nat) (e c : Option Int) (s : String)
    (h : n ≤ m) :
    severity (calculate_health n e c s).status ≤
      severity (calculate_health m e c s).status := by
  unfold calculate_health
  rw [severity_aggregate, severity_aggregate]
  simp only [List.length_append, overdueSignals_fst_length, overdueSignals_snd_length]
  split_ifs <;> omega

/-- Witness for C8 at a concrete input: 1 ≤ 5 overdue tasks, and the severity
comparison holds there. -/
theorem C8_health_monotone_in_overdue_witness :
    severity (calculate_health 1 (some 3) none "neutral").status ≤
      severity (calculate_health 5 (some 3) none "neutral").status :=
  C8_health_monotone_in_overdue 1 5 (some 3) none "neutral" (by decide)

/-! ## client_health.py — build_client_health_data (summary block, C10) -/

/-- Per-client inputs that `build_client_health_data` feeds into
`calculate_health` (overdue count from `analyze_client_tasks`, day counts,
batch sentiment label). -/
structure ClientInput where
  name : String
  overdue : Nat
  days_since_email : Option Int
  days_since_call : Option Int
  sentiment : String

/-- A client entry of the health payload, restricted to the fields the summary
block reads (`name` for the sort key, `health` for the counts). -/
structure ClientRecord where
  name : String
  health : HealthVerdict

/-- Embeds `status_order = {"red": 0, "yellow": 1, "green": 2}` with the
`.get(status, 3)` default used as the sort key. -/
def status_order (s : String) : Nat :=
  match s with
  | "red" => 0
  | "yellow" => 1
  | "green" => 2
  | _ => 3

/-- Comparator for `clients.sort(key=lambda c: (status_order.get(...), c["name"]))`
— lexicographic on (status_order, name). -/
def clientSortLE (a b : ClientRecord) : Bool :=
  decide (status_order a.health.status < status_order b.health.status ∨
    (status_order a.health.status = status_order b.health.status ∧ a.name ≤ b.name))

/-- Embeds the per-client loop and final sort of `build_client_health_data`:
each client gets a health verdict from `calculate_health`, then the list is
sorted red-first (Python's stable sort modelled by mergeSort). -/
def build_clients (ins : List ClientInput) : List ClientRecord :=
  (ins.map fun ci =>
      ClientRecord.mk ci.name
        (calculate_health ci.overdue ci.days_since_email ci.days_since_call
          ci.sentiment)).mergeSort clientSortLE

/-- The summary block of the payload built by `build_client_health_data`. -/
structure Summary where
  total : Nat
  red : Nat
  yellow : Nat
  green : Nat
deriving DecidableEq

/-- Embeds the summary construction: total = len(clients) and one count per
status value. -/
def build_summary (ins : List ClientInput) : Summary :=
  let clients := build_clients ins
  ⟨clients.length,
   clients.countP (fun cr => cr.health.status == "red"),
   clients.countP (fun cr => cr.health.status == "yellow"),
   clients.countP (fun cr => cr.health.status == "green")⟩

/-- Every aggregated verdict has one of the three statuses and a non-empty
reason list. -/
lemma aggregate_status_reasons (red yellow : List String) :
    ((aggregate red yellow).status = "red" ∨ (aggregate red yellow).status = "yellow"
      ∨ (aggregate red yellow).status = "green")
    ∧ (aggregate red yellow).reasons ≠ [] := by
  unfold aggregate
  split_ifs with h1 h2 h3
  · refine ⟨Or.inl rfl, fun hc => h1 ?_⟩
    exact (List.append_eq_nil.mp hc).1
  · refine ⟨Or.inl rfl, fun hc => ?_⟩
    have hy : yellow = [] := hc
    rw [hy] at h2
    simp at h2
  · exact ⟨Or.inr (Or.inl rfl), h3⟩
  · exact ⟨Or.inr (Or.inr rfl), by simp⟩

/-- Counting the three statuses partitions a list of client records whose
statuses all lie in {red, yellow, green}. -/
lemma countP_status_partition (l : List ClientRecord)
    (h : ∀ cr ∈ l, cr.health.status = "red" ∨ cr.health.status = "yellow"
      ∨ cr.health.status = "green") :
    l.countP (fun cr => cr.health.status == "red")
      + l.countP (fun cr => cr.health.status == "yellow")
      + l.countP (fun cr => cr.health.status == "green") = l.length := by
  induction l with
  | nil => simp
  | cons hd tl ih =>
    simp only [List.countP_cons, List.length_cons]
    have hhd := h hd (List.mem_cons_self _ _)
    have htl := ih (fun cr hm => h cr (List.mem_cons_of_mem _ hm))
    rcases hhd with h1 | h1 | h1 <;> simp [h1] <;> omega

/-- C10: every verdict of `calculate_health` has status red, yellow or green
and a non-empty reasons list; consequently the summary built by
`build_client_health_data` satisfies red + yellow + green = total = number of
client records. -/
theorem C10_summary_counts_partition :
    (∀ (n : Nat) (e c : Option Int) (s : String),
        ((calculate_health n e c s).status = "red"
          ∨ (calculate_health n e c s).status = "yellow"
          ∨ (calculate_health n e c s).status = "green")
        ∧ (calculate_health n e c s).reasons ≠ [])
    ∧ (∀ ins : List ClientInput,
        (build_summary ins).red + (build_summary ins).yellow + (build_summary ins).green
            = (build_summary ins).total
        ∧ (build_summary ins).total = ins.length) := by
  constructor
  · intro n e c s
    exact aggregate_status_reasons _ _
  · intro ins
    constructor
    · refine countP_status_partition _ (fun cr hm => ?_)
      have hperm := List.mergeSort_perm
        (ins.map fun ci => ClientRecord.mk ci.name
          (calculate_health ci.overdue ci.days_since_email ci.days_since_call
            ci.sentiment)) clientSortLE
      have hmem := hperm.mem_iff.mp hm
      rcases List.mem_map.mp hmem with ⟨ci, _, rfl⟩
      exact (aggregate_status_reasons _ _).1
    · show (build_clients ins).length = ins.length
      unfold build_clients
      rw [List.length_mergeSort, List.length_map]

/-! ## sentiment_overrides.py and the client-health cache routes (C3)

The override store (sentiment_overrides.json) is modelled as a name-keyed
map, the SQLite payload cache (client_health_cache.py) as an `Option
HealthData`, and the routes of app.py as pure state transformers.  Serving
(`api_client_health`) reads the cached payload — a fresh JSON parse in the
source, so in-place mutation by `apply_overrides` only affects that copy —
while `refresh_client_health_cache` applies the overrides to the freshly
built data *before* writing it to the cache. -/

/-- An override record {rating, reason, overridden_by, overridden_at}. -/
structure OverrideRec where
  rating : String
  reason : String
  overridden_by : String
  overridden_at : String
deriving DecidableEq

/-- The overrides file contents: a client-name-keyed map. -/
def Overrides : Type := String → Option OverrideRec

/-- Communication sub-record of a client health entry (the fields
`apply_overrides` touches). -/
structure ClientComm where
  email_sentiment : String
  sentiment_reason : String
deriving DecidableEq

/-- A client entry of the health payload, restricted to the fields
`apply_overrides` reads or writes. -/
structure HealthClient where
  name : String
  communication : ClientComm
  ai_sentiment : Option String
  ai_sentiment_reason : Option String
  sentiment_override : Option OverrideRec
deriving DecidableEq

/-- The health payload (clients list). -/
structure HealthData where
  clients : List HealthClient
deriving DecidableEq

/-- Embedding of `apply_overrides` (sentiment_overrides.py): for each client
whose name is overridden, preserve the computed sentiment into
`ai_sentiment` / `ai_sentiment_reason`, then overwrite the communication
sentiment with the override and annotate the record.  (The source's early
return on an empty override map yields the same value.) -/
def apply_overrides (ov : Overrides) (d : HealthData) : HealthData :=
  ⟨d.clients.map fun cl =>
    match ov cl.name with
    | none => cl
    | some o =>
      { cl with
        ai_sentiment := some cl.communication.email_sentiment
        ai_sentiment_reason := some cl.communication.sentiment_reason
        communication := ⟨o.rating, o.reason⟩
        sentiment_override := some o }⟩

/-- Server state: the SQLite payload cache and the overrides file. -/
structure ServerState where
  cache : Option HealthData
  overrides : Overrides

/-- Embedding of `save_override`: add or replace the override for a client. -/
def save_override (client : String) (o : OverrideRec) (st : ServerState) : ServerState :=
  { st with overrides := fun k => if k = client then some o else st.overrides k }

/-- Embedding of `delete_override`: remove the override for a client. -/
def delete_override (client : String) (st : ServerState) : ServerState :=
  { st with overrides := fun k => if k = client then none else st.overrides k }

/-- Embedding of `refresh_client_health_cache` (app.py): build the data
(abstracted as the parameter `base`), apply the current overrides, then write
the result to the cache. -/
def refresh_client_health_cache (base : HealthData) (st : ServerState) : ServerState :=
  { st with cache := some (apply_overrides st.overrides base) }

/-- Embedding of the `/api/client-health` route: read the cached payload and
apply the live overrides on the copy just read; None while the cache is
empty (the route then serves a loading placeholder). -/
def api_client_health (st : ServerState) : Option HealthData :=
  st.cache.map (apply_overrides st.overrides)

/-- Concrete base payload for the C3 counterexample: one client "Acme" whose
computed email sentiment is "positive". -/
def baseEx : HealthData :=
  ⟨[⟨"Acme", ⟨"positive", "friendly emails"⟩, none, none, none⟩]⟩

/-- Concrete override record for the C3 scenario. -/
def ovEx : OverrideRec := ⟨"negative", "escalation call", "User", "2026-01-10"⟩

/-- Initial server state for the C3 scenario: empty cache, no overrides. -/
def st0Ex : ServerState := ⟨none, fun _ => none⟩

/-- C3 counterexample: save an override for "Acme", refresh the cache (the
source applies overrides before caching), delete the override, then read.
The read returns "negative" although the computed sentiment of the base data
was "positive" — refuting the claim that the cached base data is never
mutated by the override and that deletion restores the computed sentiment
without a refresh. -/
theorem C3_counterexample :
    ((api_client_health
        (delete_override "Acme"
          (refresh_client_health_cache baseEx
            (save_override "Acme" ovEx st0Ex)))).map
      fun d => d.clients.map fun cl => cl.communication.email_sentiment) = some ["negative"]
    ∧ (baseEx.clients.map fun cl => cl.communication.email_sentiment) = ["positive"] := by
  constructor
  · rfl
  · rfl

/-- C3 amended: overrides are substituted at serve time on the copy read from
the cache, and saving or deleting an override does not itself touch the
cache; the computed sentiment is preserved alongside in `ai_sentiment`;
deleting the override restores the computed sentiment on the next read
without recomputation provided no cache refresh ran while the override was
active; but a refresh also applies the overrides before writing the cache,
so after such a refresh the overridden rating is baked into the cached data
and persists on reads even after the override is deleted. -/
theorem C3_amended_overrides_at_serve_and_refresh
    (base : HealthData) (st : ServerState) (c : String) (o : OverrideRec)
    (i : Nat) (cl : HealthClient)
    (hcl : base.clients[i]? = some cl) (hname : cl.name = c)
    (hno : st.overrides c = none) :
    (save_override c o (refresh_client_health_cache base st)).cache
        = (refresh_client_health_cache base st).cache
    ∧ (delete_override c (save_override c o (refresh_client_health_cache base st))).cache
        = (refresh_client_health_cache base st).cache
    ∧ ((api_client_health (save_override c o (refresh_client_health_cache base st))).bind
          fun d => d.clients[i]?).map
        (fun x => (x.communication.email_sentiment, x.ai_sentiment))
        = some (o.rating, some cl.communication.email_sentiment)
    ∧ ((api_client_health
          (delete_override c (save_override c o (refresh_client_health_cache base st)))).bind
          fun d => d.clients[i]?).map
        (fun x => x.communication.email_sentiment)
        = some cl.communication.email_sentiment
    ∧ (((refresh_client_health_cache base
            (save_override c o (refresh_client_health_cache base st))).cache.bind
          fun d => d.clients[i]?).map
        (fun x => x.communication.email_sentiment)
        = some o.rating)
    ∧ ((api_client_health
          (delete_override c
            (refresh_client_health_cache base
              (save_override c o (refresh_client_health_cache base st))))).bind
          fun d => d.clients[i]?).map
        (fun x => x.communication.email_sentiment)
        = some o.rating := by
  unfold api_client_health refresh_client_health_cache save_override delete_override
    apply_overrides
  refine ⟨rfl, rfl, ?_, ?_, ?_, ?_⟩ <;>
    simp [Option.map_map, List.getElem?_map, hcl, hname, hno]

/-- Witness for the amended C3 at the concrete scenario: with no prior
override, after refresh, save and delete (no further refresh), the served
sentiment is the computed "positive" again. -/
theorem C3_amended_witness :
    baseEx.clients[0]? = some ⟨"Acme", ⟨"positive", "friendly emails"⟩, none, none, none⟩
    ∧ ((api_client_health
          (delete_override "Acme"
            (save_override "Acme" ovEx (refresh_client_health_cache baseEx st0Ex)))).bind
          fun d => d.clients[0]?).map (fun x => x.communication.email_sentiment)
        = some "positive" := by
  constructor
  · rfl
  · have h := C3_amended_overrides_at_serve_and_refresh baseEx st0Ex "Acme" ovEx 0
      ⟨"Acme", ⟨"positive", "friendly emails"⟩, none, none, none⟩ rfl rfl rfl
    exact h.2.2.2.1

/-! ## Upstream request adapters (C9): clickup_request (app.py) and
grain_request (client_health.py)

Python exceptions are modelled by `PyExc`; `isException` is identically true
because every Python exception type derives from Exception, which is what
makes the final `except Exception` arm of both adapters exhaustive.  The
transport (urlopen + read + decode) either produces a response body or
raises; `json.loads` runs inside the try block and may itself raise.  An
adapter result of `none` would model an exception propagating past the
adapter's boundary. -/

/-- Python exception values that can arise inside the request adapters. -/
inductive PyExc where
  | httpError (code : Int) (reason : String) (body : String)
  | urlError (reason : String)
  | decodeError (msg : String)
  | other (msg : String)
deriving DecidableEq

/-- Matches `except urllib.error.HTTPError`. -/
def isHTTPError : PyExc → Bool
  | .httpError _ _ _ => true
  | _ => false

/-- Matches `except urllib.error.URLError`. -/
def isURLError : PyExc → Bool
  | .urlError _ => true
  | _ => false

/-- Matches `except Exception`: true for every Python exception. -/
def isException : PyExc → Bool := fun _ => true

/-- Outcome of the network transport (urlopen + response read). -/
inductive Transport where
  | success (body : String)
  | raises (e : PyExc)

/-- Parsed-response type (the JSON dict the adapters return; `[]` is `{}`). -/
def RespDict : Type := List (String × String)

/-- The try-block body of `clickup_request`: transport, then `json.loads` on
the body — either may raise. -/
def clickup_request_try (t : Transport) (json_loads : String → Except PyExc RespDict) :
    Except PyExc RespDict :=
  match t with
  | .success body => json_loads body
  | .raises e => .error e

/-- Embedding of `clickup_request` (app.py): the try-block result, handled by
the chain `except HTTPError` / `except URLError` / `except Exception`, each
arm logging and returning `{}`.  A `none` result would mean an exception
escaped the boundary. -/
def clickup_request (t : Transport) (json_loads : String → Except PyExc RespDict) :
    Option RespDict :=
  match clickup_request_try t json_loads with
  | .ok d => some d
  | .error e =>
    if isHTTPError e then some []
    else if isURLError e then some []
    else if isException e then some []
    else none

/-- Embedding of `grain_request` (client_health.py): missing API key returns
`{}` before any request; otherwise the try block is handled by the chain
`except HTTPError` / `except Exception`. -/
def grain_request (grain_key : Option String) (t : Transport)
    (json_loads : String → Except PyExc RespDict) : Option RespDict :=
  match grain_key with
  | none => some []
  | some _ =>
    match (match t with
           | .success body => json_loads body
           | .raises e => .error e : Except PyExc RespDict) with
    | .ok d => some d
    | .error e =>
      if isHTTPError e then some []
      else if isException e then some []
      else none

/-- C9: neither request adapter ever propagates an exception past its
boundary: for every transport outcome and decoder behaviour, each adapter
returns some dict — the successfully parsed response, or the empty dict on
HTTP error, transport error or decode error. -/
theorem C9_request_adapters_never_throw (t : Transport)
    (json_loads : String → Except PyExc RespDict) (grain_key : Option String) :
    (∃ d, clickup_request t json_loads = some d
      ∧ (clickup_request_try t json_loads = .ok d ∨ d = []))
    ∧ (∃ d, grain_request grain_key t json_loads = some d
      ∧ (clickup_request_try t json_loads = .ok d ∨ d = [])) := by
  constructor
  · unfold clickup_request
    rcases h : clickup_request_try t json_loads with e | d
    · refine ⟨[], ?_, Or.inr rfl⟩
      simp [isException]
    · exact ⟨d, rfl, Or.inl rfl⟩

  · unfold grain_request
    rcases grain_key with _ | k
    · exact ⟨[], rfl, Or.inr rfl⟩
    · show (∃ d, (match clickup_request_try t json_loads with
        | .ok d => some d
        | .error e =>
          if isHTTPError e then some []
          else if isException e then some []
          else none) = some d
        ∧ (clickup_request_try t json_loads = .ok d ∨ d = []))
      rcases h : clickup_request_try t json_loads with e | d
      · refine ⟨[], ?_, Or.inr rfl⟩
        simp [isException]
      · exact ⟨d, rfl, Or.inl rfl⟩

/-! ## app.py — get_velocity_history (C7)

`calculate_metrics` consults the task cache and the clock, so it is passed to
the embedding as a function parameter; `get_velocity_history` itself — the
offset loop `range(0, -weeks, -1)`, the per-week field extraction and the
final `reversed` — is embedded from the source. -/

/-- The summary fields of a weekly metrics payload that the velocity series
extracts. -/
structure MetricsSummary where
  points_completed : Nat
  tasks_completed : Nat
  total_time_hours : ℚ
deriving DecidableEq

/-- The parts of a `calculate_metrics` payload read by `get_velocity_history`:
the week label/start and the summary. -/
structure Metrics where
  week_label : String
  week_start : String
  summary : MetricsSummary
deriving DecidableEq

/-- One entry of the velocity history. -/
structure VelocityEntry where
  week : String
  week_start : String
  points : Nat
  tasks : Nat
  hours : ℚ
deriving DecidableEq

/-- The per-week extraction done inside the loop of `get_velocity_history`. -/
def velocityEntryOf (m : Metrics) : VelocityEntry :=
  ⟨m.week_label, m.week_start, m.summary.points_completed, m.summary.tasks_completed,
   m.summary.total_time_hours⟩

/-- Embedding of `get_velocity_history` (app.py): call the metrics function at
offsets 0, -1, ..., -(weeks-1), extract the velocity fields, then reverse the
accumulated list. -/
def get_velocity_history (calculate_metrics : Int → Metrics) (weeks : Nat) :
    List VelocityEntry :=
  ((List.map (fun i : Nat => -(i : Int)) (List.range weeks)).map
    (fun offset => velocityEntryOf (calculate_metrics offset))).reverse

/-- C7: for every weeks ≥ 1 and any metrics function (hence any assignee
filter), the velocity history has exactly `weeks` entries, and the entry at
position i (oldest first) is the extraction of the metrics at week offset
i + 1 - weeks — i.e. offsets -(weeks-1), ..., -1, 0 in chronological order,
regardless of the metrics values. -/
theorem C7_velocity_history_shape (calculate_metrics : Int → Metrics) (weeks : Nat)
    (_h : 1 ≤ weeks) :
    (get_velocity_history calculate_metrics weeks).length = weeks
    ∧ ∀ i, i < weeks →
        (get_velocity_history calculate_metrics weeks)[i]? =
          some (velocityEntryOf (calculate_metrics ((i : Int) + 1 - (weeks : Int)))) := by
  constructor
  · unfold get_velocity_history
    simp
  · intro i hi
    unfold get_velocity_history
    rw [List.getElem?_reverse (by simpa using hi)]
    simp only [List.length_map, List.length_range]
    rw [List.getElem?_map, List.getElem?_map, List.getElem?_range (by omega)]
    have harith : -(((weeks - 1 - i : Nat) : Int)) = (i : Int) + 1 - (weeks : Int) := by
      omega
    simp [harith]

/-- Witness for C7: with a constant metrics function and weeks = 8, the
history has exactly 8 entries with the stated offsets. -/
theorem C7_velocity_history_shape_witness :
    (get_velocity_history (fun _ => ⟨"w", "s", ⟨0, 0, 0⟩⟩) 8).length = 8
    ∧ ∀ i : Nat, i < 8 →
        (get_velocity_history (fun _ => ⟨"w", "s", ⟨0, 0, 0⟩⟩) 8)[i]? =
          some (velocityEntryOf ((fun _ => ⟨"w", "s", ⟨0, 0, 0⟩⟩ : Int → Metrics)
            ((i : Int) + 1 - (8 : Int)))) :=
  C7_velocity_history_shape (fun _ => ⟨"w", "s", ⟨0, 0, 0⟩⟩) 8 (by decide)

/-! ## app.py — task ingestion: parse_task and _fetch_all_tasks_from_api
(C4, C5) -/

/-- Value of a raw custom-field entry.  `CFValue.int` stands for every Python
value with `isinstance(value, int)` (which includes booleans); `CFValue.other`
for values that are neither str nor int nor None (floats, lists, dicts);
a missing "value" key is None, i.e. `CFValue.null`. -/
inductive CFValue where
  | null
  | str (s : String)
  | int (n : Int)
  | other
deriving DecidableEq

/-- Tests `value is None` for a custom-field value. -/
def CFValue.isNull : CFValue → Bool
  | .null => true
  | _ => false

/-- A raw custom-field entry: `cf.get("id")` and `cf.get("value")`. -/
structure CustomField where
  fid : Option String
  value : CFValue
deriving DecidableEq

/-- A raw assignee entry: `assignee.get("id")`, `assignee.get("username")`. -/
structure RawAssignee where
  aid : Option Int
  username : Option String
deriving DecidableEq

/-- The `task.get("status", {})` sub-dict: `status.get("status")` and
`status.get("type")` (field named `stype` since `type` is reserved). -/
structure RawStatus where
  sstatus : Option String
  stype : Option String
deriving DecidableEq

/-- A raw ClickUp task as consumed by `parse_task`: required id and name,
optional parent, custom fields, status dict, raw millisecond timestamps
(already int()-converted), assignees, url and time_spent. -/
structure RawTask where
  rid : String
  rname : String
  parent : Option String
  custom_fields : List CustomField
  status : RawStatus
  date_created : Option Int
  date_closed : Option Int
  due_date : Option Int
  assignees : List RawAssignee
  url : Option String
  time_spent : Option Int
deriving DecidableEq

/-- The configured Fibonacci custom-field id (default of app.py). -/
def FIBONACCI_FIELD_ID : String := "c88be994-51de-4bd3-b2f5-7850202b84bd"

/-- Embeds the SCORE_OPTIONS UUID-to-score table of app.py (`dict.get`). -/
def SCORE_OPTIONS (u : String) : Option Nat :=
  if u = "86763539-3c8e-497a-8995-e4349917bc80" then some 1
  else if u = "20341d9b-5f30-4d78-97c0-ad17a5f3a04c" then some 2
  else if u = "5db17019-f2d7-417b-9cc5-fe727f3d29f1" then some 3
  else if u = "8973f792-78cc-4fed-90f5-a88354fe881c" then some 5
  else if u = "c57e955d-5247-494f-80e7-110e88ac5c89" then some 8
  else if u = "ef195667-5b4f-4ae5-b878-7d55e0176fd3" then some 13
  else none

/-- Embeds the ORDERINDEX_TO_SCORE table of `parse_task` (`dict.get`). -/
def ORDERINDEX_TO_SCORE (n : Int) : Option Nat :=
  if n = 0 then some 1
  else if n = 1 then some 2
  else if n = 2 then some 3
  else if n = 3 then some 5
  else if n = 4 then some 8
  else if n = 5 then some 13
  else none

/-- Embeds the score-resolution loop of `parse_task`: scan the custom fields;
on the first entry whose id matches FIBONACCI_FIELD_ID *and* whose value is
not None, resolve by value type (str → SCORE_OPTIONS, int →
ORDERINDEX_TO_SCORE, anything else leaves None) and break. -/
def resolveScore : List CustomField → Option Nat
  | [] => none
  | cf :: rest =>
    if cf.fid = some FIBONACCI_FIELD_ID ∧ cf.value.isNull = false then
      match cf.value with
      | .str s => SCORE_OPTIONS s
      | .int n => ORDERINDEX_TO_SCORE n
      | _ => none
    else resolveScore rest

/-- A normalized assignee as rebuilt by `parse_task`. -/
structure Assignee where
  aid : Option Int
  username : Option String
deriving DecidableEq

/-- A normalized task as returned by `parse_task` (datetimes modelled as the
millisecond timestamp they were built from). -/
structure Task where
  id : String
  name : String
  folder : String
  list : String
  score : Option Nat
  status : String
  is_complete : Bool
  date_created : Option Int
  date_closed : Option Int
  due_date : Option Int
  assignees : List Assignee
  url : String
  time_spent_ms : Int
deriving DecidableEq

/-- Embeds `if task.get(k): dt = datetime.fromtimestamp(int(task[k])/1000)` —
Python truthiness makes both a missing/None value and a 0 timestamp fall
through to None; the resulting datetime is modelled by its ms count. -/
def parseDate (raw : Option Int) : Option Int :=
  match raw with
  | none => none
  | some ms => if ms = 0 then none else some ms

/-- Embedding of `parse_task` (app.py): returns None — the drop signal — for
a task whose id is a known parent id, otherwise the normalized task. -/
def parse_task (t : RawTask) (folder_name list_name : String)
    (parent_task_ids : List String) : Option Task :=
  if t.rid ∈ parent_task_ids then none
  else some
    { id := t.rid
      name := t.rname
      folder := folder_name
      list := list_name
      score := resolveScore t.custom_fields
      status := t.status.sstatus.getD ""
      is_complete := t.status.stype == some "closed"
      date_created := parseDate t.date_created
      date_closed := parseDate t.date_closed
      due_date := parseDate t.due_date
      assignees := t.assignees.map fun a => ⟨a.aid, a.username⟩
      url := t.url.getD ""
      time_spent_ms := t.time_spent.getD 0 }

/-- A raw task together with the folder and list names it was fetched under
(the first pass of `_fetch_all_tasks_from_api`). -/
structure RawItem where
  task : RawTask
  folder_name : String
  list_name : String
deriving DecidableEq

/-- First pass of `_fetch_all_tasks_from_api`: the set of ids appearing as
the parent of some fetched task. -/
def parentTaskIds (raws : List RawItem) : List String :=
  raws.filterMap fun r => r.task.parent

/-- Second pass of `_fetch_all_tasks_from_api`: parse every raw task against
the collected parent ids, keeping the non-None results. -/
def fetch_all_tasks_from_api (raws : List RawItem) : List Task :=
  raws.filterMap fun r => parse_task r.task r.folder_name r.list_name (parentTaskIds raws)

/-- Characterization of a successful parse: the task is not a known parent
and the output's id is the raw id. -/
lemma parse_task_some (t : RawTask) (f l : String) (ps : List String) (task : Task)
    (h : parse_task t f l ps = some task) :
    t.rid ∉ ps ∧ task.id = t.rid ∧ task.score = resolveScore t.custom_fields := by
  unfold parse_task at h
  by_cases hmem : t.rid ∈ ps
  · rw [if_pos hmem] at h
    exact absurd h (by simp)
  · rw [if_neg hmem] at h
    have := Option.some.inj h
    exact ⟨hmem, by rw [← this], by rw [← this]⟩

/-- C4: in every ingested task set, a raw task whose id is the parent of at
least one fetched task is dropped by `parse_task` (returns None) and never
materializes in the canonical normalized set; every raw task without child
tasks parses successfully and its normalized form does appear. -/
theorem C4_parent_tasks_never_materialized (raws : List RawItem) :
    (∀ r ∈ raws, (∃ r2 ∈ raws, r2.task.parent = some r.task.rid) →
        parse_task r.task r.folder_name r.list_name (parentTaskIds raws) = none
        ∧ ∀ t ∈ fetch_all_tasks_from_api raws, t.id ≠ r.task.rid)
    ∧ (∀ r ∈ raws, (¬ ∃ r2 ∈ raws, r2.task.parent = some r.task.rid) →
        ∃ t, parse_task r.task r.folder_name r.list_name (parentTaskIds raws) = some t
          ∧ t ∈ fetch_all_tasks_from_api raws ∧ t.id = r.task.rid) := by
  have hmemIds : ∀ x : String, x ∈ parentTaskIds raws ↔
      ∃ r2 ∈ raws, r2.task.parent = some x := by
    intro x
    unfold parentTaskIds
    simp [List.mem_filterMap]
  constructor
  · intro r _ hchild
    have hin : r.task.rid ∈ parentTaskIds raws := (hmemIds _).mpr hchild
    constructor
    · unfold parse_task
      rw [if_pos hin]
    · intro t ht
      rcases List.mem_filterMap.mp ht with ⟨r2, _, hparse⟩
      rcases parse_task_some _ _ _ _ _ hparse with ⟨hnotin, hid, _⟩
      intro hcontra
      rw [hcontra] at hid
      exact hnotin (hid ▸ hin)
  · intro r hr hnochild
    have hnotin : r.task.rid ∉ parentTaskIds raws := fun hc => hnochild ((hmemIds _).mp hc)
    unfold parse_task
    rw [if_neg hnotin]
    refine ⟨_, rfl, ?_, rfl⟩
    refine List.mem_filterMap.mpr ⟨r, hr, ?_⟩
    unfold parse_task
    rw [if_neg hnotin]

/-- Concrete parent raw task for the C4 witness. -/
def rawParentEx : RawItem :=
  ⟨⟨"p1", "Parent task", none, [], ⟨some "open", some "open"⟩, none, none, none, [],
    none, none⟩, "Folder", "List"⟩

/-- Concrete child raw task (parent = "p1") for the C4 witness. -/
def rawChildEx : RawItem :=
  ⟨⟨"c1", "Child task", some "p1", [], ⟨some "open", some "open"⟩, none, none, none, [],
    none, none⟩, "Folder", "List"⟩

/-- Witness for C4 at a concrete ingest of a parent and its child: the parent
is dropped and never appears in the canonical set. -/
theorem C4_parent_tasks_never_materialized_witness :
    parse_task rawParentEx.task rawParentEx.folder_name rawParentEx.list_name
        (parentTaskIds [rawParentEx, rawChildEx]) = none
    ∧ ∀ t ∈ fetch_all_tasks_from_api [rawParentEx, rawChildEx],
        t.id ≠ rawParentEx.task.rid :=
  (C4_parent_tasks_never_materialized [rawParentEx, rawChildEx]).1 rawParentEx
    (by simp) ⟨rawChildEx, by simp, rfl⟩

/-! Specification-side score resolution for C5.  The claim reads: the score is
resolved from the *first custom-field entry matching the configured Fibonacci
field id* — a string value via the UUID table, an integer value via the
order-index table, any other value leaves the score null — and scanning does
not continue after the first match.  Under that reading an id-matching entry
whose value is None ends the scan with a null score, whereas the source skips
such an entry (its condition also demands `cf.get("value") is not None`) and
keeps scanning. -/

/-- Modelled from the claim's words: stop at the first entry whose id matches
the configured field id, whatever its value. -/
def resolveScoreSpec : List CustomField → Option Nat
  | [] => none
  | cf :: rest =>
    if cf.fid = some FIBONACCI_FIELD_ID then
      match cf.value with
      | .str s => SCORE_OPTIONS s
      | .int n => ORDERINDEX_TO_SCORE n
      | _ => none
    else resolveScoreSpec rest

/-- Custom-field list refuting C5 as stated: a first id-matching entry with a
None value followed by a second id-matching entry with integer value 2. -/
def cfsNullThenInt : List CustomField :=
  [⟨some FIBONACCI_FIELD_ID, .null⟩, ⟨some FIBONACCI_FIELD_ID, .int 2⟩]

/-- C5 counterexample: on `cfsNullThenInt` the claim as stated yields a null
score (the first id-matching entry has a non-string non-integer value and
scanning must stop), but the source resolves orderindex 2 to score 3 from the
second entry because it skips id-matching entries whose value is None. -/
theorem C5_counterexample_null_skipped :
    resolveScore cfsNullThenInt = some 3 ∧ resolveScoreSpec cfsNullThenInt = none := by
  constructor
  · rfl
  · rfl

/-- Unfolding equation for `resolveScore` on a cons cell. -/
lemma resolveScore_cons (cf : CustomField) (rest : List CustomField) :
    resolveScore (cf :: rest) =
      if cf.fid = some FIBONACCI_FIELD_ID ∧ cf.value.isNull = false then
        match cf.value with
        | .str s => SCORE_OPTIONS s
        | .int n => ORDERINDEX_TO_SCORE n
        | _ => none
      else resolveScore rest := rfl

/-- C5 amended: the normalized score is resolved from the first custom-field
entry matching the configured Fibonacci field id *and carrying a non-null
value* — all earlier entries either have a different id or a None value —
a string value resolved through the UUID table, an integer value through the
order-index table, any other non-null value leaving the score null with the
scan ended; the score is non-null exactly when one of those two lookups
succeeded on that entry.  Moreover the score field of every task
materialized by `parse_task` is this resolution of its custom fields. -/
theorem C5_score_resolution_amended (cfs : List CustomField) :
    (∀ n : Nat, resolveScore cfs = some n ↔
      ∃ l1 cf l2, cfs = l1 ++ cf :: l2
        ∧ (∀ c ∈ l1, ¬(c.fid = some FIBONACCI_FIELD_ID ∧ c.value.isNull = false))
        ∧ cf.fid = some FIBONACCI_FIELD_ID ∧ cf.value.isNull = false
        ∧ ((∃ s, cf.value = .str s ∧ SCORE_OPTIONS s = some n)
          ∨ (∃ i, cf.value = .int i ∧ ORDERINDEX_TO_SCORE i = some n)))
    ∧ (∀ (t : RawTask) (f l : String) (ps : List String) (task : Task),
        parse_task t f l ps = some task → task.score = resolveScore t.custom_fields) := by
  constructor
  · intro n
    constructor
    · intro hres
      induction cfs with
      | nil => simp [resolveScore] at hres
      | cons cf rest ih =>
        by_cases hmatch : cf.fid = some FIBONACCI_FIELD_ID ∧ cf.value.isNull = false
        · refine ⟨[], cf, rest, rfl, by simp, hmatch.1, hmatch.2, ?_⟩
          unfold resolveScore at hres
          rw [if_pos hmatch] at hres
          rcases hv : cf.value with _ | s | i | _
          · rw [hv] at hmatch
            simp [CFValue.isNull] at hmatch
          · rw [hv] at hres
            exact Or.inl ⟨s, rfl, hres⟩
          · rw [hv] at hres
            exact Or.inr ⟨i, rfl, hres⟩
          · rw [hv] at hres
            simp at hres
        · unfold resolveScore at hres
          rw [if_neg hmatch] at hres
          rcases ih hres with ⟨l1, cf2, l2, heq, hskip, h1, h2, h3⟩
          exact ⟨cf :: l1, cf2, l2, by rw [heq, List.cons_append], by
            intro c hc
            rcases List.mem_cons.mp hc with hc | hc
            · rw [hc]; exact hmatch
            · exact hskip c hc, h1, h2, h3⟩
    · intro hdec
      rcases hdec with ⟨l1, cf, l2, heq, hskip, h1, h2, h3⟩
      subst heq
      induction l1 with
      | nil =>
        rw [List.nil_append, resolveScore_cons, if_pos ⟨h1, h2⟩]
        rcases h3 with ⟨s, hv, hlook⟩ | ⟨i, hv, hlook⟩
        · rw [hv]
          exact hlook
        · rw [hv]
          exact hlook
      | cons c l1' ih =>
        have hcskip := hskip c (List.mem_cons_self _ _)
        have hrest := ih (fun c2 hc2 => hskip c2 (List.mem_cons_of_mem _ hc2))
        rw [List.cons_append, resolveScore_cons, if_neg hcskip]
        exact hrest
  · intro t f l ps task hp
    exact (parse_task_some _ _ _ _ _ hp).2.2

/-- Witness for the amended C5: a single-entry list with the score-1 UUID
resolves to score 1 and admits the stated first-match decomposition. -/
theorem C5_score_resolution_amended_witness :
    resolveScore [⟨some FIBONACCI_FIELD_ID, .str "86763539-3c8e-497a-8995-e4349917bc80"⟩]
        = some 1
    ∧ ∃ l1 cf l2,
        ([⟨some FIBONACCI_FIELD_ID, .str "86763539-3c8e-497a-8995-e4349917bc80"⟩]
            : List CustomField) = l1 ++ cf :: l2
        ∧ (∀ c ∈ l1, ¬(c.fid = some FIBONACCI_FIELD_ID ∧ c.value.isNull = false))
        ∧ cf.fid = some FIBONACCI_FIELD_ID ∧ cf.value.isNull = false
        ∧ ((∃ s, cf.value = .str s ∧ SCORE_OPTIONS s = some 1)
          ∨ (∃ i, cf.value = .int i ∧ ORDERINDEX_TO_SCORE i = some 1)) :=
  ⟨rfl, ((C5_score_resolution_amended
    [⟨some FIBONACCI_FIELD_ID, .str "86763539-3c8e-497a-8995-e4349917bc80"⟩]).1 1).mp rfl⟩

/-! ## app.py — _calculate_metrics_impl: per-score efficiency buckets (C2)

The week bounds produced by `get_week_bounds` enter as parameters; hours are
rationals (ms / 3,600,000); Python's `round(x, 2)` is modelled by `round2`
(tie behaviour is immaterial to the claims). -/

/-- One row of the EXPECTED_HOURS table (keys "min", "max", "mid"). -/
structure Expected where
  min : ℚ
  max : ℚ
  mid : ℚ
deriving DecidableEq

/-- Embeds the EXPECTED_HOURS table of app.py (`dict[score]` access — defined
exactly on the six valid scores). -/
def EXPECTED_HOURS (score : Nat) : Option Expected :=
  if score = 1 then some ⟨1/2, 1, 3/4⟩
  else if score = 2 then some ⟨1, 2, 3/2⟩
  else if score = 3 then some ⟨2, 4, 3⟩
  else if score = 5 then some ⟨4, 8, 6⟩
  else if score = 8 then some ⟨8, 16, 12⟩
  else if score = 13 then some ⟨16, 32, 24⟩
  else none

/-- Embeds the completed-this-week filter of `_calculate_metrics_impl`:
complete, with a (truthy) close date between monday and sunday. -/
def completedThisWeek (tasks : List Task) (monday sunday : Int) : List Task :=
  tasks.filter fun t =>
    t.is_complete && (match t.date_closed with
      | some d => decide (monday ≤ d ∧ d ≤ sunday)
      | none => false)

/-- Python truthiness of the score field (None and 0 are falsy). -/
def scoreTruthy : Option Nat → Bool
  | none => false
  | some v => v != 0

/-- Actual hours of a task: `time_spent_ms / (1000 * 60 * 60)`. -/
def actualHours (t : Task) : ℚ := (t.time_spent_ms : ℚ) / 3600000

/-- Embeds the `time_per_score` bucket construction restricted to one score:
hours of the completed-this-week tasks with a truthy score and positive
logged time whose score equals `s`. -/
def timesAtScore (cw : List Task) (s : Nat) : List ℚ :=
  ((cw.filter fun t => scoreTruthy t.score && decide (0 < t.time_spent_ms)).filter
    fun t => t.score == some s).map actualHours

/-- Models Python's `round(x, 2)`: scale by 100, round to an integer, scale
back. -/
def round2 (q : ℚ) : ℚ := ((round (q * 100) : ℤ) : ℚ) / 100

/-- The per-score bucket written into `score_metrics[score]`. -/
structure ScoreBucket where
  expected_min : ℚ
  expected_max : ℚ
  expected_mid : ℚ
  actual_avg : Option ℚ
  task_count : Nat
  total_completed : Nat
  efficiency : Option ℚ
  status : String
deriving DecidableEq
/-- Embeds `avg_hours = sum(times)/len(times) if times else None`. -/
def avgOf (times : List ℚ) : Option ℚ :=
  match times with
  | [] => none
  | _ => some (times.sum / (times.length : ℚ))

/-- Embeds the classification chain: None gives "no_data"; otherwise
"exceeding" below the expected min, "on_track" up to the expected max,
"over" beyond it. -/
def classifyEfficiency (expected : Expected) : Option ℚ → String
  | none => "no_data"
  | some a =>
    if a < expected.min then "exceeding"
    else if a ≤ expected.max then "on_track"
    else "over"

/-- Embeds `round(x, 2) if x else None` (Python truthiness: None and 0 fall
through to None). -/
def pyRound2Opt : Option ℚ → Option ℚ
  | none => none
  | some a => if a = 0 then none else some (round2 a)

/-- Embeds the per-score loop body of `_calculate_metrics_impl`: average the
timed hours at the score (None when there are none), look up the expected
range, classify, compute the efficiency ratio, and round the displayed
fields under the source's truthiness guards. -/
def score_metrics_at (tasks : List Task) (monday sunday : Int) (s : Nat) :
    Option ScoreBucket :=
  (EXPECTED_HOURS s).map fun expected =>
    let cw := completedThisWeek tasks monday sunday
    let times := timesAtScore cw s
    let avg_hours := avgOf times
    { expected_min := expected.min
      expected_max := expected.max
      expected_mid := expected.mid
      actual_avg := pyRound2Opt avg_hours
      task_count := times.length
      total_completed := cw.countP fun t => t.score == some s
      efficiency := pyRound2Opt (avg_hours.map fun a => a / expected.mid)
      status := classifyEfficiency expected avg_hours }

/-- Every row of the EXPECTED_HOURS table has a positive mid value. -/
lemma EXPECTED_HOURS_mid_pos (s : Nat) (e : Expected) (hs : EXPECTED_HOURS s = some e) :
    0 < e.mid := by
  unfold EXPECTED_HOURS at hs
  split_ifs at hs <;> (rw [← Option.some.inj hs]; norm_num)

/-- Every row of the EXPECTED_HOURS table has min ≤ max. -/
lemma EXPECTED_HOURS_min_le_max (s : Nat) (e : Expected) (hs : EXPECTED_HOURS s = some e) :
    e.min ≤ e.max := by
  unfold EXPECTED_HOURS at hs
  split_ifs at hs <;> (rw [← Option.some.inj hs]; norm_num)

/-- Every element of a per-score times bucket is positive (the bucket only
collects tasks with positive logged milliseconds). -/
lemma timesAtScore_pos (cw : List Task) (s : Nat) :
    ∀ q ∈ timesAtScore cw s, 0 < q := by
  intro q hq
  unfold timesAtScore at hq
  rcases List.mem_map.mp hq with ⟨t, ht, rfl⟩
  have h2 := List.of_mem_filter (List.mem_of_mem_filter ht)
  have hms : 0 < t.time_spent_ms := by
    have := (Bool.and_eq_true _ _).mp h2
    exact of_decide_eq_true this.2
  unfold actualHours
  have hc : (0 : ℚ) < (t.time_spent_ms : ℚ) := by exact_mod_cast hms
  exact div_pos hc (by norm_num)

/-- Unfolding equation for `pyRound2Opt` on a present value. -/
lemma pyRound2Opt_some (a : ℚ) :
    pyRound2Opt (some a) = if a = 0 then none else some (round2 a) := rfl

/-- Unfolding equation for `classifyEfficiency` on a present average. -/
lemma classifyEfficiency_some (e : Expected) (a : ℚ) :
    classifyEfficiency e (some a) =
      if a < e.min then "exceeding" else if a ≤ e.max then "on_track" else "over" := rfl

/-- C2: for each valid score, the efficiency bucket averages the actual hours
of exactly the timed completed-this-week tasks at that score; it classifies
"no_data" when no such task exists, "exceeding" when the average is strictly
below the expected min, "on_track" whenever the average is at least the min
and at most the max (in particular on the whole interval [min, max]), "over"
when it exceeds the max; and the efficiency ratio is the average divided by
the expected mid, rounded to two decimals. -/
theorem C2_score_efficiency_classification (tasks : List Task) (monday sunday : Int)
    (s : Nat) (expected : Expected) (hs : EXPECTED_HOURS s = some expected) :
    ∀ b, score_metrics_at tasks monday sunday s = some b →
      b.status = classifyEfficiency expected
          (avgOf (timesAtScore (completedThisWeek tasks monday sunday) s))
      ∧ (timesAtScore (completedThisWeek tasks monday sunday) s = [] →
          b.status = "no_data" ∧ b.efficiency = none ∧ b.actual_avg = none)
      ∧ ∀ q0 qs, timesAtScore (completedThisWeek tasks monday sunday) s = q0 :: qs →
          ((q0 :: qs).sum / ((q0 :: qs).length : ℚ) < expected.min →
              b.status = "exceeding")
          ∧ (expected.min ≤ (q0 :: qs).sum / ((q0 :: qs).length : ℚ)
              ∧ (q0 :: qs).sum / ((q0 :: qs).length : ℚ) ≤ expected.max →
              b.status = "on_track")
          ∧ (expected.max < (q0 :: qs).sum / ((q0 :: qs).length : ℚ) →
              b.status = "over")
          ∧ b.efficiency = some (round2
              ((q0 :: qs).sum / ((q0 :: qs).length : ℚ) / expected.mid)) := by
  intro b hb
  unfold score_metrics_at at hb
  rw [hs] at hb
  simp only [Option.map_some'] at hb
  replace hb := (Option.some.inj hb).symm
  have hstatus : b.status = classifyEfficiency expected
      (avgOf (timesAtScore (completedThisWeek tasks monday sunday) s)) := by
    rw [hb]
  refine ⟨hstatus, ?_, ?_⟩
  · intro hnil
    rw [hb, hnil]
    exact ⟨rfl, rfl, rfl⟩
  · intro q0 qs hcons
    have hpos : ∀ q ∈ (q0 :: qs), 0 < q := by
      rw [← hcons]
      exact timesAtScore_pos _ _
    have hsum : 0 < (q0 :: qs).sum := List.sum_pos _ hpos (by simp)
    have hlen : (0 : ℚ) < ((q0 :: qs).length : ℚ) := by
      have : 0 < (q0 :: qs).length := by simp
      exact_mod_cast this
    have havg : 0 < (q0 :: qs).sum / ((q0 :: qs).length : ℚ) := div_pos hsum hlen
    have hmid : 0 < expected.mid := EXPECTED_HOURS_mid_pos s expected hs
    have hminmax : expected.min ≤ expected.max := EXPECTED_HOURS_min_le_max s expected hs
    have heff : 0 < (q0 :: qs).sum / ((q0 :: qs).length : ℚ) / expected.mid :=
      div_pos havg hmid
    have havgOf : avgOf (timesAtScore (completedThisWeek tasks monday sunday) s)
        = some ((q0 :: qs).sum / ((q0 :: qs).length : ℚ)) := by
      rw [hcons]
      rfl
    refine ⟨?_, ?_, ?_, ?_⟩
    · intro hlt
      rw [hstatus, havgOf, classifyEfficiency_some, if_pos hlt]
    · intro hrange
      rw [hstatus, havgOf, classifyEfficiency_some,
        if_neg (not_lt.mpr hrange.1), if_pos hrange.2]
    · intro hgt
      rw [hstatus, havgOf, classifyEfficiency_some,
        if_neg (not_lt.mpr (le_trans hminmax (le_of_lt hgt))),
        if_neg (not_le.mpr hgt)]
    · rw [hb]
      show pyRound2Opt ((avgOf (timesAtScore (completedThisWeek tasks monday sunday) s)).map
        fun a => a / expected.mid) = _
      rw [havgOf]
      simp only [Option.map_some']
      rw [pyRound2Opt_some, if_neg (ne_of_gt heff)]

/-- Concrete task for the C2 witness: completed in-week at score 2 with 1.5h
logged. -/
def c2TaskEx : Task :=
  { id := "t1", name := "Example", folder := "F", list := "L", score := some 2,
    status := "complete", is_complete := true, date_created := none,
    date_closed := some 50, due_date := none, assignees := [], url := "",
    time_spent_ms := 5400000 }

/-- Expected-hours row for score 2. -/
def c2ExpectedEx : Expected := ⟨1, 2, 3/2⟩

/-- Witness for C2 at score 2 on a concrete one-task week. -/
theorem C2_score_efficiency_classification_witness :
    EXPECTED_HOURS 2 = some c2ExpectedEx
    ∧ ∀ b, score_metrics_at [c2TaskEx] 0 100 2 = some b →
      b.status = classifyEfficiency c2ExpectedEx
          (avgOf (timesAtScore (completedThisWeek [c2TaskEx] 0 100) 2))
      ∧ (timesAtScore (completedThisWeek [c2TaskEx] 0 100) 2 = [] →
          b.status = "no_data" ∧ b.efficiency = none ∧ b.actual_avg = none)
      ∧ ∀ q0 qs, timesAtScore (completedThisWeek [c2TaskEx] 0 100) 2 = q0 :: qs →
          ((q0 :: qs).sum / ((q0 :: qs).length : ℚ) < c2ExpectedEx.min →
              b.status = "exceeding")
          ∧ (c2ExpectedEx.min ≤ (q0 :: qs).sum / ((q0 :: qs).length : ℚ)
              ∧ (q0 :: qs).sum / ((q0 :: qs).length : ℚ) ≤ c2ExpectedEx.max →
              b.status = "on_track")
          ∧ (c2ExpectedEx.max < (q0 :: qs).sum / ((q0 :: qs).length : ℚ) →
              b.status = "over")
          ∧ b.efficiency = some (round2
              ((q0 :: qs).sum / ((q0 :: qs).length : ℚ) / c2ExpectedEx.mid)) :=
  ⟨rfl, C2_score_efficiency_classification [c2TaskEx] 0 100 2 c2ExpectedEx rfl⟩


/-! ## app.py — the durable task cache: _write_task_cache / _read_task_cache
(C6)

The SQLite table is modelled as an association list built row by row
(`DELETE FROM task_cache` then `INSERT OR REPLACE` keyed on the task id);
`json.dumps`/`json.loads` are modelled as the identity on the structured row
representation.  `datetime.isoformat` / `datetime.fromisoformat` are
modelled by an injective decimal rendering of the millisecond timestamp with
its exact parser — the property the source relies on is that parsing inverts
rendering, which holds of the model as it does of the Python pair. -/

/-- Decimal digit character. -/
def decDigit : Nat → Char
  | 0 => '0'
  | 1 => '1'
  | 2 => '2'
  | 3 => '3'
  | 4 => '4'
  | 5 => '5'
  | 6 => '6'
  | 7 => '7'
  | 8 => '8'
  | _ => '9'

/-- Value of a decimal digit character (codepoints 48-57), None otherwise. -/
def decVal (ch : Char) : Option Nat :=
  if 48 ≤ ch.toNat ∧ ch.toNat ≤ 57 then some (ch.toNat - 48) else none

/-- Decode a character list as little-endian decimal digits. -/
def decodeDigits : List Char → Option (List Nat)
  | [] => some []
  | ch :: cs =>
    match decVal ch, decodeDigits cs with
    | some d, some ds => some (d :: ds)
    | _, _ => none

/-- Little-endian decimal digits with a structural fuel argument (so the
kernel can evaluate it). -/
def natDigitsAux : Nat → Nat → List Nat
  | 0, _ => []
  | _ + 1, 0 => []
  | fuel + 1, m + 1 => ((m + 1) % 10) :: natDigitsAux fuel ((m + 1) / 10)

/-- Little-endian decimal digits of a natural, non-empty also for zero. -/
def natDigits (n : Nat) : List Nat :=
  if n = 0 then [0] else natDigitsAux n n

/-- Model of `datetime.isoformat`: an injective, never-empty textual
rendering of the timestamp. -/
def isoformat (d : Int) : String :=
  if d < 0 then String.mk ('-' :: (natDigits d.natAbs).map decDigit)
  else String.mk ((natDigits d.natAbs).map decDigit)

/-- Character-list stage of the parser: a leading minus sign makes the rest
a negative decimal, otherwise the whole list is a decimal. -/
def fromisoDataAux : List Char → Option Int
  | [] => none
  | ch :: cs =>
    if ch = '-' then (decodeDigits cs).map fun ds => -(((Nat.ofDigits 10 ds : Nat)) : Int)
    else (decodeDigits (ch :: cs)).map fun ds => (((Nat.ofDigits 10 ds : Nat)) : Int)

/-- Model of `datetime.fromisoformat`: the exact parser of `isoformat`,
None on malformed input (Python raises ValueError there, which the reader
turns into None). -/
def fromisoformat (str : String) : Option Int := fromisoDataAux str.data

/-- Unfolding equation of the parser on a non-empty character list. -/
lemma fromisoDataAux_cons (ch : Char) (cs : List Char) :
    fromisoDataAux (ch :: cs) =
      if ch = '-' then (decodeDigits cs).map fun ds => -(((Nat.ofDigits 10 ds : Nat)) : Int)
      else (decodeDigits (ch :: cs)).map fun ds => (((Nat.ofDigits 10 ds : Nat)) : Int) := rfl

/-- Digit characters decode back to their value. -/
lemma decVal_decDigit (k : Nat) (hk : k < 10) : decVal (decDigit k) = some k := by
  interval_cases k <;> rfl

/-- Digit characters are never the minus sign. -/
lemma decDigit_ne_dash (k : Nat) : decDigit k ≠ '-' := by
  unfold decDigit
  split <;> decide

/-- Decoding inverts digit-wise encoding for digit lists below the base. -/
lemma decodeDigits_map_decDigit (ds : List Nat) (h : ∀ d ∈ ds, d < 10) :
    decodeDigits (ds.map decDigit) = some ds := by
  induction ds with
  | nil => rfl
  | cons d rest ih =>
    rw [List.map_cons]
    show (match decVal (decDigit d), decodeDigits (rest.map decDigit) with
      | some d, some ds => some (d :: ds)
      | _, _ => none) = some (d :: rest)
    rw [decVal_decDigit d (h d (List.mem_cons_self _ _)),
      ih (fun x hx => h x (List.mem_cons_of_mem _ hx))]

/-- All digits produced by `natDigitsAux` are below the base. -/
lemma natDigitsAux_lt (fuel : Nat) : ∀ n, ∀ d ∈ natDigitsAux fuel n, d < 10 := by
  induction fuel with
  | zero =>
    intro n d hd
    simp [natDigitsAux] at hd
  | succ fuel ih =>
    intro n d hd
    rcases n with _ | m
    · simp [natDigitsAux] at hd
    · rw [natDigitsAux] at hd
      rcases List.mem_cons.mp hd with hd | hd
      · rw [hd]
        exact Nat.mod_lt _ (by norm_num)
      · exact ih _ d hd

/-- All digits produced by `natDigits` are below the base. -/
lemma natDigits_lt (n : Nat) : ∀ d ∈ natDigits n, d < 10 := by
  intro d hd
  unfold natDigits at hd
  split_ifs at hd
  · simp at hd
    omega
  · exact natDigitsAux_lt n n d hd

/-- `natDigits` is never empty. -/
lemma natDigits_ne_nil (n : Nat) : natDigits n ≠ [] := by
  unfold natDigits
  split_ifs with h
  · simp
  · rcases n with _ | m
    · exact absurd rfl h
    · rw [natDigitsAux]
      simp

/-- With enough fuel, `natDigitsAux` represents its input. -/
lemma ofDigits_natDigitsAux (fuel : Nat) : ∀ n, n ≤ fuel →
    Nat.ofDigits 10 (natDigitsAux fuel n) = n := by
  induction fuel with
  | zero =>
    intro n hn
    have : n = 0 := Nat.le_zero.mp hn
    rw [this]
    rfl
  | succ fuel ih =>
    intro n hn
    rcases n with _ | m
    · rfl
    · rw [natDigitsAux, Nat.ofDigits_cons]
      have hdiv : (m + 1) / 10 ≤ fuel := by
        have h1 : (m + 1) / 10 < m + 1 := Nat.div_lt_self (Nat.succ_pos m) (by norm_num)
        omega
      rw [ih _ hdiv]
      omega

/-- `natDigits` represents its input. -/
lemma ofDigits_natDigits (n : Nat) : Nat.ofDigits 10 (natDigits n) = n := by
  unfold natDigits
  split_ifs with h
  · simp [Nat.ofDigits, h]
  · exact ofDigits_natDigitsAux n n le_rfl

/-- The rendered timestamp is never the empty string (so the reader's Python
truthiness guard never skips it). -/
lemma isoformat_ne_empty (d : Int) : isoformat d ≠ "" := by
  unfold isoformat
  rcases hd : natDigits d.natAbs with _ | ⟨d0, ds⟩
  · exact absurd hd (natDigits_ne_nil _)
  · split_ifs
    · intro hc
      have hdata : ('-' :: (d0 :: ds).map decDigit : List Char) = [] :=
        congrArg String.data hc
      simp at hdata
    · intro hc
      have hdata : ((d0 :: ds).map decDigit : List Char) = [] :=
        congrArg String.data hc
      simp at hdata

/-- Parsing inverts rendering. -/
lemma fromisoformat_isoformat (d : Int) : fromisoformat (isoformat d) = some d := by
  unfold isoformat fromisoformat
  rcases hd : natDigits d.natAbs with _ | ⟨d0, ds⟩
  · exact absurd hd (natDigits_ne_nil _)
  · have hlt : ∀ x ∈ d0 :: ds, x < 10 := by
      rw [← hd]
      exact natDigits_lt _
    have hdec : decodeDigits ((d0 :: ds).map decDigit) = some (d0 :: ds) :=
      decodeDigits_map_decDigit _ hlt
    have hof : Nat.ofDigits 10 (d0 :: ds) = d.natAbs := by
      rw [← hd]
      exact ofDigits_natDigits _
    by_cases hneg : d < 0
    · rw [if_pos hneg]
      show fromisoDataAux ('-' :: (d0 :: ds).map decDigit) = some d
      rw [fromisoDataAux_cons, if_pos rfl, hdec, Option.map_some', hof]
      have hcast : ((d.natAbs : Nat) : Int) = -d := by omega
      rw [hcast, neg_neg]
    · rw [if_neg hneg]
      show fromisoDataAux ((d0 :: ds).map decDigit) = some d
      rw [List.map_cons, fromisoDataAux_cons, if_neg (decDigit_ne_dash d0),
        ← List.map_cons, hdec, Option.map_some', hof]
      have hcast : ((d.natAbs : Nat) : Int) = d := by omega
      rw [hcast]

/-- Dynamic value of a date field after a cache read. -/
inductive DateCell where
  | dnull
  | ddt (d : Int)
  | dstr (str : String)
deriving DecidableEq

/-- A task row as stored in the cache: identical to the normalized task
except that the three date fields are serialized to strings (or null). -/
structure StoredTask where
  id : String
  name : String
  folder : String
  list : String
  score : Option Nat
  status : String
  is_complete : Bool
  date_created : Option String
  date_closed : Option String
  due_date : Option String
  assignees : List Assignee
  url : String
  time_spent_ms : Int
deriving DecidableEq

/-- A task as produced by `_read_task_cache`: like `Task`, but a date field
is dynamically typed because the reader leaves falsy or unparseable values
behind (None, or a kept string). -/
structure CachedTask where
  id : String
  name : String
  folder : String
  list : String
  score : Option Nat
  status : String
  is_complete : Bool
  date_created : DateCell
  date_closed : DateCell
  due_date : DateCell
  assignees : List Assignee
  url : String
  time_spent_ms : Int
deriving DecidableEq

/-- The write-side loop body of `_write_task_cache`: serialize the three
datetime fields to their isoformat strings (None stays null). -/
def serializeTask (t : Task) : StoredTask :=
  { id := t.id, name := t.name, folder := t.folder, list := t.list,
    score := t.score, status := t.status, is_complete := t.is_complete,
    date_created := t.date_created.map isoformat,
    date_closed := t.date_closed.map isoformat,
    due_date := t.due_date.map isoformat,
    assignees := t.assignees, url := t.url, time_spent_ms := t.time_spent_ms }

/-- The read-side treatment of one date field: `if task.get(k) and
isinstance(task[k], str)` — null and the empty string are left as they are;
a truthy string is parsed, with a parse failure becoming None. -/
def readDateCellStr (str : String) : DateCell :=
  if str = "" then .dstr str
  else
    match fromisoformat str with
    | some d => .ddt d
    | none => .dnull

/-- Dispatch of the read-side date handling on the stored cell. -/
def readDateCell : Option String → DateCell
  | none => .dnull
  | some str => readDateCellStr str

/-- The read-side loop body of `_read_task_cache`: JSON-parse the row and
restore the three date fields. -/
def deserializeTask (st : StoredTask) : CachedTask :=
  { id := st.id, name := st.name, folder := st.folder, list := st.list,
    score := st.score, status := st.status, is_complete := st.is_complete,
    date_created := readDateCell st.date_created,
    date_closed := readDateCell st.date_closed,
    due_date := readDateCell st.due_date,
    assignees := st.assignees, url := st.url, time_spent_ms := st.time_spent_ms }

/-- The injection of a normalized task into the dynamically-typed read
result (dates become proper datetimes again). -/
def taskToCached (t : Task) : CachedTask :=
  { id := t.id, name := t.name, folder := t.folder, list := t.list,
    score := t.score, status := t.status, is_complete := t.is_complete,
    date_created := match t.date_created with | none => .dnull | some d => .ddt d,
    date_closed := match t.date_closed with | none => .dnull | some d => .ddt d,
    due_date := match t.due_date with | none => .dnull | some d => .ddt d,
    assignees := t.assignees, url := t.url, time_spent_ms := t.time_spent_ms }

/-- SQLite `INSERT OR REPLACE` on the id-keyed table. -/
def insertOrReplace (table : List (String × StoredTask)) (row : String × StoredTask) :
    List (String × StoredTask) :=
  if table.any fun p => p.1 == row.1 then
    (table.filter fun p => p.1 != row.1) ++ [row]
  else table ++ [row]

/-- Embedding of `_write_task_cache`: clear the table, then insert each
serialized task keyed by its id. -/
def _write_task_cache (tasks : List Task) : List (String × StoredTask) :=
  tasks.foldl (fun tbl t => insertOrReplace tbl (t.id, serializeTask t)) []

/-- Embedding of `_read_task_cache`: parse every stored row back. -/
def _read_task_cache (table : List (String × StoredTask)) : List CachedTask :=
  table.map fun p => deserializeTask p.2

/-- Reading one serialized date field restores the datetime. -/
lemma readDateCell_serialized (od : Option Int) :
    readDateCell (od.map isoformat) =
      (match od with | none => DateCell.dnull | some d => DateCell.ddt d) := by
  rcases od with _ | d
  · rfl
  · show readDateCellStr (isoformat d) = DateCell.ddt d
    unfold readDateCellStr
    rw [if_neg (isoformat_ne_empty d), fromisoformat_isoformat]

/-- Deserializing a serialized task yields the injected original. -/
lemma deserializeTask_serializeTask (t : Task) :
    deserializeTask (serializeTask t) = taskToCached t := by
  unfold deserializeTask serializeTask taskToCached
  simp only [readDateCell_serialized]

/-- Folding fresh-keyed inserts over an id-disjoint accumulator appends the
rows in order. -/
lemma foldl_insertOrReplace_fresh (tasks : List Task) :
    ∀ acc : List (String × StoredTask),
      (∀ t ∈ tasks, ∀ p ∈ acc, p.1 ≠ t.id) →
      (tasks.map Task.id).Nodup →
      tasks.foldl (fun tbl t => insertOrReplace tbl (t.id, serializeTask t)) acc
        = acc ++ tasks.map fun t => (t.id, serializeTask t) := by
  induction tasks with
  | nil =>
    intro acc _ _
    simp
  | cons t ts ih =>
    intro acc hacc hnd
    rw [List.foldl_cons]
    have hany : (acc.any fun p => p.1 == t.id) = false := by
      rw [List.any_eq_false]
      intro p hp
      simp only [beq_iff_eq]
      exact hacc t (List.mem_cons_self _ _) p hp
    have hstep : insertOrReplace acc (t.id, serializeTask t) = acc ++ [(t.id, serializeTask t)] := by
      unfold insertOrReplace
      rw [hany]
      simp
    rw [hstep]
    have hnd' : (ts.map Task.id).Nodup := by
      rw [List.map_cons] at hnd
      exact hnd.of_cons
    have hidt : ∀ u ∈ ts, u.id ≠ t.id := by
      intro u hu
      rw [List.map_cons] at hnd
      have := (List.nodup_cons.mp hnd).1
      intro hc
      exact this (hc ▸ List.mem_map_of_mem Task.id hu)
    have hacc' : ∀ u ∈ ts, ∀ p ∈ acc ++ [(t.id, serializeTask t)], p.1 ≠ u.id := by
      intro u hu p hp
      rcases List.mem_append.mp hp with hp | hp
      · exact hacc u (List.mem_cons_of_mem _ hu) p hp
      · rcases List.mem_singleton.mp hp with rfl
        intro hc
        exact hidt u hu hc.symm
    rw [ih _ hacc' hnd']
    simp

/-- C6: writing a list of normalized tasks with pairwise-distinct ids to the
durable cache and reading it back restores exactly the input tasks — every
field preserved, the three datetime fields restored from their serialized
strings — with the rows in a permutation-equivalent order. -/
theorem C6_task_cache_round_trip (tasks : List Task)
    (h : (tasks.map Task.id).Nodup) :
    _read_task_cache (_write_task_cache tasks) = tasks.map taskToCached
    ∧ (_read_task_cache (_write_task_cache tasks)).Perm (tasks.map taskToCached) := by
  have heq : _read_task_cache (_write_task_cache tasks) = tasks.map taskToCached := by
    unfold _write_task_cache _read_task_cache
    rw [foldl_insertOrReplace_fresh tasks [] (by simp) h]
    rw [List.nil_append, List.map_map]
    refine List.map_congr_left ?_
    intro t _
    exact deserializeTask_serializeTask t
  exact ⟨heq, heq ▸ List.Perm.refl _⟩

/-- Concrete tasks for the C6 witness: distinct ids, mixed null and non-null
dates. -/
def c6Tasks : List Task :=
  [{ id := "a1", name := "First", folder := "F", list := "L", score := some 3,
     status := "complete", is_complete := true, date_created := some 1700000000000,
     date_closed := some 1700000500000, due_date := none, assignees := [⟨some 7, some "jake"⟩],
     url := "https://example.test/a1", time_spent_ms := 3600000 },
   { id := "b2", name := "Second", folder := "F", list := "L", score := none,
     status := "open", is_complete := false, date_created := none,
     date_closed := none, due_date := some 1700009900000, assignees := [],
     url := "", time_spent_ms := 0 }]

/-- Witness for C6: the two-task list has distinct ids and round-trips. -/
theorem C6_task_cache_round_trip_witness :
    (c6Tasks.map Task.id).Nodup
    ∧ _read_task_cache (_write_task_cache c6Tasks) = c6Tasks.map taskToCached :=
  ⟨by decide, (C6_task_cache_round_trip c6Tasks (by decide)).1⟩

end AgileDash
